import Mathlib

/-!
Shallow embedding of `src/image_dl.py` (an image-downloading utility) and
proofs about it.

The program's pure core is string manipulation: URL validation, filename
resolution from response metadata, and a collision-avoidance loop.  Python
strings are modelled as Lean `String` (operated on through their `List Char`
data); the Python standard-library string/URL helpers the code calls
(`str.lower`, `str.strip`, `str.split`, `urllib.parse.urlparse`,
`urllib.parse.unquote`, `os.path.splitext`, `os.path.join`,
`mimetypes.guess_extension`) are modelled below, faithful on the ASCII
inputs the program deals in.  Effects (the network, the filesystem, the
wall clock) are modelled as explicit oracle parameters, so that statements
such as "no network call is made" become statements about the returned
trace.
-/

namespace ImageDl

/-! ### Python string primitives, modelled on `List Char` -/

/-- Python `s.lower()`, ASCII case folding (`Char.toLower` lowercases
exactly the ASCII uppercase letters, as CPython does on ASCII input). -/
def pyLower (s : String) : String := ⟨s.data.map Char.toLower⟩

/-- Python `s.startswith(t)`. -/
def pyStartsWith (s t : String) : Bool := t.data.isPrefixOf s.data

/-- Python `s.endswith(t)`. -/
def pyEndsWith (s t : String) : Bool := t.data.isSuffixOf s.data

/-- Python `t in s` (substring containment) on char lists. -/
def containsSub (sep : List Char) : List Char → Bool
  | [] => sep.isEmpty
  | c :: rest => sep.isPrefixOf (c :: rest) || containsSub sep rest

/-- Python `t in s` on strings. -/
def pyContains (s t : String) : Bool := containsSub t.data s.data

/-- Python `c in s` for a single character. -/
def pyContainsChar (s : String) (c : Char) : Bool := s.data.contains c

/-- Python `s.strip(chars)`: drop the characters of `set` from both ends. -/
def stripChars (set : List Char) (l : List Char) : List Char :=
  ((l.dropWhile (set.contains ·)).reverse.dropWhile (set.contains ·)).reverse

/-- Python `s.strip(chars)` on strings. -/
def pyStrip (set : List Char) (s : String) : String := ⟨stripChars set s.data⟩

/-- The characters Python `str.strip()` (no argument) removes, on ASCII. -/
def wsChars : List Char := [' ', '\t', '\n', '\x0d', '\x0b', '\x0c']

/-- Python `s.strip()` on strings (ASCII whitespace). -/
def pyStripWS (s : String) : String := pyStrip wsChars s

/-- Python `s.split(c)[0]` for a one-character separator: the characters
before the first occurrence of `c` (all of `l` if `c` is absent). -/
def takeUntilChar (c : Char) (l : List Char) : List Char :=
  l.takeWhile (· != c)

/-- The characters strictly after the first occurrence of `c` (all of `l`
if `c` is absent): Python `s.split(c, 1)[-1]`. -/
def dropPastChar (c : Char) (l : List Char) : List Char :=
  match (l.dropWhile (· != c)) with
  | [] => l
  | _ :: rest => rest

/-- Helper for `afterLastChar`: `cand` is the current candidate suffix. -/
def afterLastCharAux (c : Char) (cand : List Char) : List Char → List Char
  | [] => cand
  | a :: rest =>
      if a == c then afterLastCharAux c rest rest
      else afterLastCharAux c cand rest

/-- Python `s.split(c)[-1]` for a one-character separator: the suffix after
the last occurrence of `c` (all of `l` if `c` is absent). -/
def afterLastChar (c : Char) (l : List Char) : List Char :=
  afterLastCharAux c l l

/-- Helper for `afterLastSub`: fuelled left-to-right non-overlapping scan,
`cand` the suffix after the most recent match of `sep`. -/
def afterLastSubAux (sep : List Char) : Nat → List Char → List Char → List Char
  | 0, cand, _ => cand
  | _ + 1, cand, [] => cand
  | fuel + 1, cand, a :: rest =>
      if sep.isPrefixOf (a :: rest) then
        let nxt := (a :: rest).drop sep.length
        afterLastSubAux sep fuel nxt nxt
      else
        afterLastSubAux sep fuel cand rest

/-- Python `s.split(sep)[-1]` for a (nonempty) multi-character separator:
the suffix after the last non-overlapping occurrence of `sep`. -/
def afterLastSub (sep : List Char) (l : List Char) : List Char :=
  afterLastSubAux sep (l.length + 1) l l

/-- Python `s.split(sep)[-1]` on strings. -/
def pySplitLast (s sep : String) : String := ⟨afterLastSub sep.data s.data⟩

/-! ### URL parsing, modelled after `urllib.parse` -/

/-- A character allowed in a URL scheme after the leading letter. -/
def isSchemeChar (c : Char) : Bool :=
  c.isAlpha || c.isDigit || c == '+' || c == '-' || c == '.'

/-- Hexadecimal digit test for percent decoding. -/
def isHexDigitChar (c : Char) : Bool :=
  c.isDigit || ('a' ≤ c.toLower && c.toLower ≤ 'f')

/-- Value of a hexadecimal digit. -/
def hexVal (c : Char) : Nat :=
  if c.isDigit then c.toNat - '0'.toNat else c.toLower.toNat - 'a'.toNat + 10

/-- `urllib.parse.unquote` on char lists: a `%` followed by two hex digits
decodes to the byte they denote; anything else is kept.  (CPython further
UTF-8-decodes multi-byte sequences; on ASCII escapes, which are the only
ones this program meets, the two agree.) -/
def unquoteList : List Char → List Char
  | [] => []
  | '%' :: h1 :: h2 :: rest =>
      if isHexDigitChar h1 && isHexDigitChar h2 then
        Char.ofNat (16 * hexVal h1 + hexVal h2) :: unquoteList rest
      else
        '%' :: unquoteList (h1 :: h2 :: rest)
  | c :: rest => c :: unquoteList rest

/-- `urllib.parse.unquote` on strings. -/
def unquote (s : String) : String := ⟨unquoteList s.data⟩

/-- `urlparse`'s `_splitparams` applied to a path: drop `;params` from the
last path segment. -/
def splitParams (l : List Char) : List Char :=
  if l.contains '/' then
    let seg := afterLastChar '/' l
    if seg.contains ';' then
      l.take (l.length - seg.length) ++ takeUntilChar ';' seg
    else l
  else takeUntilChar ';' l

/-- `urllib.parse.urlparse(url).path` on char lists: strip the fragment,
then a well-formed `scheme:`, then a `//netloc`, then the query, then the
last segment's `;params`. -/
def urlPathList (l : List Char) : List Char :=
  let l := takeUntilChar '#' l
  let l :=
    match l.head? with
    | some c0 =>
        if c0.isAlpha && l.contains ':' &&
            (takeUntilChar ':' l).all isSchemeChar then
          dropPastChar ':' l
        else l
    | none => l
  let l :=
    if ['/', '/'].isPrefixOf l then
      (l.drop 2).dropWhile (fun c => !(c == '/' || c == '?' || c == '#'))
    else l
  let l := takeUntilChar '?' l
  if l.contains ';' then splitParams l else l

/-- `urllib.parse.urlparse(url).path` on strings. -/
def urlPath (url : String) : String := ⟨urlPathList url.data⟩

/-! ### Filesystem path helpers, modelled after `posixpath` -/

/-- Index of the last occurrence of `c` in `l`, if any. -/
def lastIdxOfAux (c : Char) (i : Nat) (best : Option Nat) : List Char → Option Nat
  | [] => best
  | a :: rest => lastIdxOfAux c (i + 1) (if a == c then some i else best) rest

/-- Index of the last occurrence of `c` in `l`, if any. -/
def lastIdxOf (c : Char) (l : List Char) : Option Nat :=
  lastIdxOfAux c 0 none l

/-- `os.path.splitext` (POSIX): split at the last `.` of the final path
segment, unless every character of the segment before that dot is itself a
dot (so `.bashrc` keeps its name whole). -/
def splitext (p : String) : String × String :=
  let l := p.data
  let start := match lastIdxOf '/' l with
    | some i => i + 1
    | none => 0
  match lastIdxOf '.' l with
  | none => (p, "")
  | some d =>
      if start ≤ d && ((l.drop start).take (d - start)).any (· != '.') then
        (⟨l.take d⟩, ⟨l.drop d⟩)
      else (p, "")

/-- `os.path.join(a, b)` (POSIX, two arguments). -/
def pathJoin (a b : String) : String :=
  if pyStartsWith b "/" then b
  else if a = "" || pyEndsWith a "/" then a ++ b
  else a ++ "/" ++ b

/-- `mimetypes.guess_extension` restricted to the content types this
utility can meet; unknown types give `none`, as CPython does. -/
def guess_extension (mime : String) : Option String :=
  if mime = "image/png" then some ".png"
  else if mime = "image/jpeg" then some ".jpg"
  else if mime = "image/gif" then some ".gif"
  else if mime = "image/bmp" then some ".bmp"
  else if mime = "image/webp" then some ".webp"
  else if mime = "image/tiff" then some ".tiff"
  else if mime = "image/svg+xml" then some ".svg"
  else if mime = "text/html" then some ".html"
  else if mime = "text/plain" then some ".txt"
  else none

/-! ### The program — `src/image_dl.py`

Effect oracles: the directory state, the single HTTP GET's outcome, the
file-existence predicate, the write outcome, the wall-clock timestamp, and
a fuel bound for the (source-level unbounded) collision `while` loop. -/

/-- Outcome of an `os.makedirs` attempt on a directory that does not yet
exist. -/
inductive MkOutcome where
  | ok
  | permissionError
  | otherError
deriving DecidableEq

/-- Filesystem directory state: which directories exist, and what creating
a missing one would do. -/
structure DirState where
  dirs : String → Bool
  canCreate : String → MkOutcome

/-- `os.makedirs(name, exist_ok=True)`: an existing directory is success
and no mutation; otherwise creation either succeeds (recording the new
directory) or raises. -/
def makedirs_exist_ok (st : DirState) (name : String) : Except MkOutcome DirState :=
  if st.dirs name then Except.ok st
  else
    match st.canCreate name with
    | MkOutcome.ok => Except.ok ⟨fun p => p == name || st.dirs p, st.canCreate⟩
    | MkOutcome.permissionError => Except.error MkOutcome.permissionError
    | MkOutcome.otherError => Except.error MkOutcome.otherError

/-- `create_directory` (src/image_dl.py lines 14-25): returns the
directory name on success and `none` on `PermissionError` or any other
exception; the prints are elided. -/
def create_directory (st : DirState) (directory_name : String) :
    Option String × DirState :=
  match makedirs_exist_ok st directory_name with
  | Except.ok st2 => (some directory_name, st2)
  | Except.error _ => (none, st)

/-- `extract_filename_from_url` (lines 27-40).  The wall clock is an
explicit parameter: `timestamp` stands for
`datetime.now().strftime("%Y%m%d_%H%M%S")`. -/
def extract_filename_from_url (url : String) (timestamp : String) : String :=
  let path := unquote (urlPath url)
  if path ≠ "" && pyContainsChar path '/' then
    let filename := ⟨afterLastChar '/' path.data⟩
    if filename ≠ "" && pyContainsChar filename '.' then filename
    else "image_" ++ timestamp ++ ".jpg"
  else "image_" ++ timestamp ++ ".jpg"

/-- The image-extension list of lines 44 and 80. -/
def image_extensions : List String :=
  [".jpg", ".jpeg", ".png", ".gif", ".bmp", ".webp", ".tiff"]

/-- `is_valid_image_url` (lines 42-47): does the lowercased URL path end
in a known image extension? -/
def is_valid_image_url (url : String) : Bool :=
  image_extensions.any (fun ext => pyEndsWith (pyLower (urlPath url)) ext)

/-- Line 80's test: `any(filename.lower().endswith(ext) for ext in [...])`. -/
def has_image_extension (filename : String) : Bool :=
  image_extensions.any (fun ext => pyEndsWith (pyLower filename) ext)

/-- Lines 80-86: if the filename lacks a recognized image extension,
append one guessed from `content_type.split(';')[0]`, falling back to
`.jpg`. -/
def ensure_extension (filename : String) (content_type : String) : String :=
  if has_image_extension filename then filename
  else
    match guess_extension ⟨takeUntilChar ';' content_type.data⟩ with
    | some ext => filename ++ ext
    | none => filename ++ ".jpg"

/-- Lines 71-86, the filename resolution inside `download_image`: prefer a
`filename=` hint in the content-disposition header (quotes stripped), else
derive from the URL or the clock; then ensure an extension. -/
def resolve_filename (content_disposition content_type url timestamp : String) :
    String :=
  let filename :=
    if pyContains content_disposition "filename=" then
      pyStrip ['"', Char.ofNat 39] (pySplitLast content_disposition "filename=")
    else
      extract_filename_from_url url timestamp
  ensure_extension filename content_type

/-- Lines 91-96, the collision-avoidance `while` loop, fuelled (the source
loop has no bound; `fuel` out only matters past `fuel` occupied names).
`ex` is `os.path.exists`. -/
def collision_loop (ex : String → Bool) (directory base ext : String) :
    Nat → Nat → String → String
  | 0, _, filename => filename
  | fuel + 1, counter, filename =>
      if ex (pathJoin directory filename) then
        collision_loop ex directory base ext fuel (counter + 1)
          (base ++ "_" ++ toString counter ++ ext)
      else filename

/-- The `n`-th name the loop can try: the original filename, then
`base_1ext`, `base_2ext`, ... -/
def collision_candidate (filename base ext : String) : Nat → String
  | 0 => filename
  | k + 1 => base ++ "_" ++ toString (k + 1) ++ ext

/-- The headers and body of a successful `requests.get`. -/
structure HttpResponse where
  status : Nat
  contentType : String
  contentDisposition : String
  chunks : List (List Nat)

/-- Outcome of `requests.get(url, stream=True, timeout=30)`. -/
inductive GetResult where
  | connectionError
  | timeoutError
  | requestError
  | ok (r : HttpResponse)

/-- Outcome of opening and streaming to the destination file. -/
inductive WriteOutcome where
  | ok
  | permissionError
  | ioError
deriving DecidableEq

/-- The effect oracles `download_image` consults. -/
structure NetEnv where
  get : GetResult
  fileExists : String → Bool
  write : WriteOutcome
  timestamp : String
  fuel : Nat

/-- What one `download_image` call did: its boolean return value, whether
the HTTP GET was issued, and the path and byte count written (if any). -/
structure DLResult where
  success : Bool
  networkCalled : Bool
  saved : Option (String × Nat)
deriving DecidableEq

/-- Total bytes the chunk loop of lines 101-103 writes (falsy chunks are
skipped; an empty chunk contributes nothing either way). -/
def chunkBytes (chunks : List (List Nat)) : Nat :=
  (chunks.map List.length).sum

/-- Line 51's guard: `url.startswith(('http://', 'https://'))`. -/
def has_http_scheme (url : String) : Bool :=
  pyStartsWith url "http://" || pyStartsWith url "https://"

/-- `download_image` (lines 49-123).  `raise_for_status` raises exactly on
status ≥ 400; every exception handler returns `False` (line 123); the
prints and warnings are elided. -/
def download_image (env : NetEnv) (url : String) (directory : String) : DLResult :=
  if !has_http_scheme url then ⟨false, false, none⟩
  else
    match env.get with
    | GetResult.connectionError => ⟨false, true, none⟩
    | GetResult.timeoutError => ⟨false, true, none⟩
    | GetResult.requestError => ⟨false, true, none⟩
    | GetResult.ok r =>
        if 400 ≤ r.status then ⟨false, true, none⟩
        else
          let filename :=
            resolve_filename r.contentDisposition r.contentType url env.timestamp
          let be := splitext filename
          let filename2 :=
            collision_loop env.fileExists directory be.1 be.2 env.fuel 1 filename
          let filepath := pathJoin directory filename2
          match env.write with
          | WriteOutcome.ok => ⟨true, true, some (filepath, chunkBytes r.chunks)⟩
          | WriteOutcome.permissionError => ⟨false, true, none⟩
          | WriteOutcome.ioError => ⟨false, true, none⟩

/-- The oracles `main` consults: the directory state, the line typed at the
prompt (`none` models `EOFError` / `KeyboardInterrupt`), and the network
environment for the one download. -/
structure MainEnv where
  dir : DirState
  inputLine : Option String
  net : NetEnv

/-- What one `main` run did. -/
structure MainResult where
  downloadCalled : Bool
  networkCalled : Bool
  saved : Option (String × Nat)
deriving DecidableEq

/-- `main` (lines 125-160): ensure `Fetched_Images`, abort if that fails;
read and strip one input line, abort if it is empty (or missing); else run
`download_image`. -/
def main (env : MainEnv) : MainResult :=
  match (create_directory env.dir "Fetched_Images").1 with
  | none => ⟨false, false, none⟩
  | some directory =>
      match env.inputLine with
      | none => ⟨false, false, none⟩
      | some line =>
          let url := pyStripWS line
          if url = "" then ⟨false, false, none⟩
          else
            let res := download_image env.net url directory
            ⟨true, res.networkCalled, res.saved⟩

/-! ### Helper lemmas -/

/-- A string always ends with what was appended to it. -/
theorem pyEndsWith_append (a b : String) : pyEndsWith (a ++ b) b = true := by
  unfold pyEndsWith
  rw [String.data_append]
  exact List.isSuffixOf_iff_suffix.mpr (List.suffix_append _ _)

/-- Lowercasing preserves the suffix relation. -/
theorem pyEndsWith_lower {s t : String} (h : pyEndsWith s t = true) :
    pyEndsWith (pyLower s) (pyLower t) = true := by
  unfold pyEndsWith pyLower at *
  exact List.isSuffixOf_iff_suffix.mpr
    ((List.isSuffixOf_iff_suffix.mp h).map Char.toLower)

/-- Appending `.jpg` always yields a recognized image extension. -/
theorem has_image_extension_append_jpg (f : String) :
    has_image_extension (f ++ ".jpg") = true := by
  have h : pyEndsWith (pyLower (f ++ ".jpg")) ".jpg" = true :=
    pyEndsWith_lower (pyEndsWith_append f ".jpg")
  simp [has_image_extension, image_extensions, h]

/-! ### C1 — invalid scheme is rejected before any network access -/

/-- C1: for every URL that starts with neither `http://` nor `https://`,
`download_image` returns `False`, issues no HTTP GET, and writes nothing. -/
theorem download_image_rejects_non_http (env : NetEnv) (url directory : String)
    (h1 : pyStartsWith url "http://" = false)
    (h2 : pyStartsWith url "https://" = false) :
    download_image env url directory = ⟨false, false, none⟩ := by
  unfold download_image has_http_scheme
  rw [h1, h2]
  rfl

/-- C1 witness: the scheme-less URL `ftp://e/a.png` is rejected with no
network call. -/
theorem download_image_rejects_non_http_witness :
    download_image ⟨GetResult.connectionError, fun _ => false, WriteOutcome.ok, "TS", 3⟩
      "ftp://e/a.png" "d" = ⟨false, false, none⟩ :=
  download_image_rejects_non_http _ "ftp://e/a.png" "d" (by decide) (by decide)

/-! ### C2 — `https://example.com/download` with content-type `image/png` -/

/-- C2 counterexample: for the URL `https://example.com/download` with no
content-disposition and content-type `image/png`, the resolved filename
does NOT end in `.png` (at the concrete timestamp `20240101_000000`). -/
theorem resolve_download_png_counterexample :
    pyEndsWith
      (resolve_filename "" "image/png" "https://example.com/download" "20240101_000000")
      ".png" = false := by decide

/-- C2 amended: for the URL `https://example.com/download` (last path
segment without a `.`), no content-disposition and content-type
`image/png`, the resolution yields the timestamp fallback
`image_<timestamp>.jpg` — which already ends in `.jpg`, so the
content-type is never consulted and the result does not end in `.png`. -/
theorem resolve_download_yields_timestamp_jpg (ts : String) :
    resolve_filename "" "image/png" "https://example.com/download" ts
      = "image_" ++ ts ++ ".jpg" := by
  have hx : extract_filename_from_url "https://example.com/download" ts
      = "image_" ++ ts ++ ".jpg" := rfl
  unfold resolve_filename
  rw [show pyContains "" "filename=" = false from rfl]
  simp only [Bool.false_eq_true, if_false, hx]
  unfold ensure_extension
  rw [has_image_extension_append_jpg]
  simp

/-! ### C4 — content-disposition filename hint wins, quotes stripped -/

/-- C4: whenever the response carries
`content-disposition: attachment; filename="pic.png"`, the resolution
yields `pic.png` (quotes stripped), for every URL, content-type and
timestamp. -/
theorem resolve_disposition_pic_png (url content_type ts : String) :
    resolve_filename "attachment; filename=\"pic.png\"" content_type url ts
      = "pic.png" := rfl

/-! ### C5 — filename reused from the URL path, query excluded -/

/-- C5: for `https://example.com/path/photo.jpeg?x=1` with no
content-disposition, the resolution yields `photo.jpeg` — the query string
is excluded and the last path segment (which contains a `.`) is reused,
for every content-type and timestamp. -/
theorem resolve_url_photo_jpeg (content_type ts : String) :
    resolve_filename "" content_type "https://example.com/path/photo.jpeg?x=1" ts
      = "photo.jpeg" := rfl

/-! ### C3 — collision avoidance stops at the first free name -/

/-- The loop of lines 91-96, started at counter `j + 1` on the `j`-th
candidate, returns the first free candidate, provided the fuel covers the
remaining distance. -/
theorem collision_loop_spec (ex : String → Bool) (dir base ext filename : String)
    (n : Nat)
    (htaken : ∀ m, m < n →
      ex (pathJoin dir (collision_candidate filename base ext m)) = true)
    (hfree : ex (pathJoin dir (collision_candidate filename base ext n)) = false) :
    ∀ fuel j, j ≤ n → n - j < fuel →
      collision_loop ex dir base ext fuel (j + 1)
          (collision_candidate filename base ext j)
        = collision_candidate filename base ext n := by
  intro fuel
  induction fuel with
  | zero => intro j _ hf; omega
  | succ fuel ih =>
      intro j hj _
      rcases Nat.lt_or_ge j n with hlt | hge
      · show (if ex (pathJoin dir (collision_candidate filename base ext j)) then _
              else _) = _
        rw [htaken j hlt]
        simp only [if_true]
        have hc : base ++ "_" ++ toString (j + 1) ++ ext
            = collision_candidate filename base ext (j + 1) := rfl
        rw [hc]
        exact ih (j + 1) hlt (by omega)
      · have hjn : j = n := Nat.le_antisymm hj hge
        subst hjn
        show (if ex (pathJoin dir (collision_candidate filename base ext j)) then _
              else _) = _
        rw [hfree]
        simp

/-- C3: when `photo.jpeg` is taken the loop tries `photo_1.jpeg`, then
`photo_2.jpeg`, and so on with a strictly increasing counter
(`collision_candidate` `1` and `2` are exactly those names, and `splitext`
splits `photo.jpeg` into the base and extension the loop rewrites with);
for every directory state whose first free candidate is the `n`-th, the
loop (with fuel beyond `n`) returns exactly that candidate — a name no
existing file bears. -/
theorem collision_loop_first_free (ex : String → Bool) (dir : String) (n fuel : Nat)
    (htaken : ∀ m, m < n →
      ex (pathJoin dir (collision_candidate "photo.jpeg" "photo" ".jpeg" m)) = true)
    (hfree : ex (pathJoin dir (collision_candidate "photo.jpeg" "photo" ".jpeg" n)) = false)
    (hfuel : n < fuel) :
    splitext "photo.jpeg" = ("photo", ".jpeg")
    ∧ collision_candidate "photo.jpeg" "photo" ".jpeg" 1 = "photo_1.jpeg"
    ∧ collision_candidate "photo.jpeg" "photo" ".jpeg" 2 = "photo_2.jpeg"
    ∧ collision_loop ex dir "photo" ".jpeg" fuel 1 "photo.jpeg"
        = collision_candidate "photo.jpeg" "photo" ".jpeg" n
    ∧ ex (pathJoin dir (collision_loop ex dir "photo" ".jpeg" fuel 1 "photo.jpeg"))
        = false := by
  have hmain : collision_loop ex dir "photo" ".jpeg" fuel 1 "photo.jpeg"
      = collision_candidate "photo.jpeg" "photo" ".jpeg" n :=
    collision_loop_spec ex dir "photo" ".jpeg" "photo.jpeg" n htaken hfree fuel 0
      (Nat.zero_le n) (by omega)
  exact ⟨rfl, rfl, rfl, hmain, by rw [hmain]; exact hfree⟩

/-- C3 witness: with `d/photo.jpeg` and `d/photo_1.jpeg` taken, the loop
resolves to `photo_2.jpeg`. -/
theorem collision_loop_first_free_witness :
    collision_loop (fun p => p == "d/photo.jpeg" || p == "d/photo_1.jpeg")
        "d" "photo" ".jpeg" 4 1 "photo.jpeg"
      = collision_candidate "photo.jpeg" "photo" ".jpeg" 2 :=
  (collision_loop_first_free (fun p => p == "d/photo.jpeg" || p == "d/photo_1.jpeg")
    "d" 2 4 (by decide) (by decide) (by decide)).2.2.2.1

/-! ### C6 — resolution is total and always bears an extension -/

/-- C6: for every content-disposition, content-type, URL and timestamp the
resolution produces a string, and that string bears a recognized image
extension, or ends with the extension guessed from the content-type, or
ends with the fallback `.jpg`. -/
theorem resolve_filename_extension_invariant (cd ct url ts : String) :
    has_image_extension (resolve_filename cd ct url ts) = true
    ∨ (∃ e, guess_extension ⟨takeUntilChar ';' ct.data⟩ = some e
        ∧ pyEndsWith (resolve_filename cd ct url ts) e = true)
    ∨ pyEndsWith (resolve_filename cd ct url ts) ".jpg" = true := by
  unfold resolve_filename ensure_extension
  cases hhe : has_image_extension
      (if pyContains cd "filename=" then
        pyStrip ['"', Char.ofNat 39] (pySplitLast cd "filename=")
      else extract_filename_from_url url ts) with
  | true => left; simp [hhe]
  | false =>
      cases hg : guess_extension ⟨takeUntilChar ';' ct.data⟩ with
      | some e =>
          right; left
          refine ⟨e, rfl, ?_⟩
          simp only [hhe, Bool.false_eq_true, if_false]
          exact pyEndsWith_append _ e
      | none =>
          right; right
          simp only [hhe, Bool.false_eq_true, if_false, hg]
          exact pyEndsWith_append _ ".jpg"

/-! ### C7 — directory creation contract -/

/-- C7: `create_directory` returns the given path exactly on success, a
pre-existing directory is success with no state change, a successful call
followed by a second call on the resulting state succeeds again
(idempotence), a creation failure (permission or other) yields `none`
instead of the path, and on that failure `main` aborts with no network
call and no write. -/
theorem create_directory_contract :
    (∀ st name p, (create_directory st name).1 = some p → p = name)
    ∧ (∀ st name, st.dirs name = true → create_directory st name = (some name, st))
    ∧ (∀ st name st2, create_directory st name = (some name, st2) →
        (create_directory st2 name).1 = some name)
    ∧ (∀ st name, st.dirs name = false → st.canCreate name ≠ MkOutcome.ok →
        (create_directory st name).1 = none)
    ∧ (∀ env : MainEnv, (create_directory env.dir "Fetched_Images").1 = none →
        main env = ⟨false, false, none⟩) := by
  refine ⟨?_, ?_, ?_, ?_, ?_⟩
  · intro st name p h
    unfold create_directory at h
    cases hm : makedirs_exist_ok st name <;> rw [hm] at h <;> simp at h
    exact h.symm
  · intro st name hd
    simp [create_directory, makedirs_exist_ok, hd]
  · intro st name st2 h
    have hst2 : st2.dirs name = true := by
      unfold create_directory at h
      cases hm : makedirs_exist_ok st name <;> rw [hm] at h <;> simp at h
      unfold makedirs_exist_ok at hm
      by_cases hd : st.dirs name = true
      · simp only [hd, if_true] at hm
        cases hm
        rw [← h]; exact hd
      · simp only [hd, Bool.false_eq_true, if_false] at hm
        cases hc : st.canCreate name <;> rw [hc] at hm <;> cases hm
        rw [← h]; simp
    simp [create_directory, makedirs_exist_ok, hst2]
  · intro st name hd hc
    unfold create_directory makedirs_exist_ok
    simp only [hd, Bool.false_eq_true, if_false]
    cases hcc : st.canCreate name
    · exact absurd hcc hc
    · simp
    · simp
  · intro env h
    unfold main
    rw [h]

/-! ### C8 — `download_image` returns a boolean, failures yield `False` -/

/-- C8: `download_image` always returns a boolean trace; it returns `True`
exactly when the URL passed the scheme check, the GET came back with a
non-error status, and the streaming write ran to completion — equivalently,
exactly when a file was saved; on success the saved byte count is the
whole body (every non-empty chunk), and the connection, timeout, request,
HTTP-status and write failures all yield `False` rather than escaping. -/
theorem download_image_return_contract (env : NetEnv) (url directory : String) :
    ((download_image env url directory).success = true ↔
      (has_http_scheme url = true
        ∧ ∃ r, env.get = GetResult.ok r ∧ r.status < 400
            ∧ env.write = WriteOutcome.ok))
    ∧ ((download_image env url directory).success = true ↔
        ∃ p n, (download_image env url directory).saved = some (p, n))
    ∧ (∀ r, env.get = GetResult.ok r →
        (download_image env url directory).success = true →
        ∃ p, (download_image env url directory).saved
          = some (p, chunkBytes r.chunks)) := by
  cases hs : has_http_scheme url with
  | false =>
      have hres : download_image env url directory = ⟨false, false, none⟩ := by
        simp [download_image, hs]
      rw [hres]
      refine ⟨by simp, by simp, ?_⟩
      intro r2 _ hsucc
      exact absurd hsucc (by simp)
  | true =>
      cases hg : env.get with
      | connectionError =>
          have hres : download_image env url directory = ⟨false, true, none⟩ := by
            simp [download_image, hs, hg]
          rw [hres]
          refine ⟨by simp, by simp, ?_⟩
          intro r2 hr2 _
          cases hr2
      | timeoutError =>
          have hres : download_image env url directory = ⟨false, true, none⟩ := by
            simp [download_image, hs, hg]
          rw [hres]
          refine ⟨by simp, by simp, ?_⟩
          intro r2 hr2 _
          cases hr2
      | requestError =>
          have hres : download_image env url directory = ⟨false, true, none⟩ := by
            simp [download_image, hs, hg]
          rw [hres]
          refine ⟨by simp, by simp, ?_⟩
          intro r2 hr2 _
          cases hr2
      | ok r =>
          rcases Nat.lt_or_ge r.status 400 with hst | hst
          · cases hw : env.write with
            | ok =>
                have hres : download_image env url directory
                    = ⟨true, true, some (pathJoin directory
                        (collision_loop env.fileExists directory
                          (splitext (resolve_filename r.contentDisposition
                            r.contentType url env.timestamp)).1
                          (splitext (resolve_filename r.contentDisposition
                            r.contentType url env.timestamp)).2
                          env.fuel 1
                          (resolve_filename r.contentDisposition
                            r.contentType url env.timestamp)),
                        chunkBytes r.chunks)⟩ := by
                  simp [download_image, hs, hg, hw, Nat.not_le.mpr hst]
                rw [hres]
                refine ⟨⟨fun _ => ⟨rfl, r, rfl, hst, rfl⟩, fun _ => rfl⟩,
                  ⟨fun _ => ⟨_, _, rfl⟩, fun _ => rfl⟩, ?_⟩
                intro r2 hr2 _
                cases GetResult.ok.inj hr2
                exact ⟨_, rfl⟩
            | permissionError =>
                have hres : download_image env url directory = ⟨false, true, none⟩ := by
                  simp [download_image, hs, hg, hw, Nat.not_le.mpr hst]
                rw [hres]
                refine ⟨by simp, by simp, ?_⟩
                intro r2 _ hsucc
                exact absurd hsucc (by simp)
            | ioError =>
                have hres : download_image env url directory = ⟨false, true, none⟩ := by
                  simp [download_image, hs, hg, hw, Nat.not_le.mpr hst]
                rw [hres]
                refine ⟨by simp, by simp, ?_⟩
                intro r2 _ hsucc
                exact absurd hsucc (by simp)
          · have hres : download_image env url directory = ⟨false, true, none⟩ := by
              simp [download_image, hs, hg, Nat.not_lt.mpr hst]
            rw [hres]
            refine ⟨by simp [Nat.not_lt.mpr hst], by simp, ?_⟩
            intro r2 _ hsucc
            exact absurd hsucc (by simp)

/-! ### C9 — empty input aborts before any download -/

/-- C9: when the line read at the prompt strips to the empty string, `main`
returns without invoking the download: no network call and no file write
occur. -/
theorem main_empty_input (env : MainEnv) (line : String)
    (h1 : env.inputLine = some line) (h2 : pyStripWS line = "") :
    main env = ⟨false, false, none⟩ := by
  unfold main
  cases hd : (create_directory env.dir "Fetched_Images").1 with
  | none => rfl
  | some directory =>
      rw [h1]
      simp [h2]

/-- C9 witness: a run whose input line is whitespace only. -/
theorem main_empty_input_witness :
    main ⟨⟨fun _ => true, fun _ => MkOutcome.ok⟩, some "   ",
        ⟨GetResult.connectionError, fun _ => false, WriteOutcome.ok, "TS", 3⟩⟩
      = ⟨false, false, none⟩ :=
  main_empty_input _ "   " rfl (by decide)

/-! ### C10 — extension recognition is case-insensitive -/

/-- C10: the resolved-filename extension check of line 80 lowercases the
filename, so a filename already ending in `.JPG` or `.PNG` gets no extra
extension appended; and the soft URL check of lines 42-47 lowercases the
URL path, so a URL path ending in `.JPG` or `.PNG` passes it. -/
theorem extension_check_case_insensitive :
    (∀ f ct, pyEndsWith f ".JPG" = true → ensure_extension f ct = f)
    ∧ (∀ f ct, pyEndsWith f ".PNG" = true → ensure_extension f ct = f)
    ∧ (∀ url, pyEndsWith (urlPath url) ".JPG" = true → is_valid_image_url url = true)
    ∧ (∀ url, pyEndsWith (urlPath url) ".PNG" = true → is_valid_image_url url = true) := by
  have hjpg : ∀ s : String, pyEndsWith s ".JPG" = true →
      pyEndsWith (pyLower s) ".jpg" = true := by
    intro s h
    have := pyEndsWith_lower h
    rwa [show pyLower ".JPG" = ".jpg" from rfl] at this
  have hpng : ∀ s : String, pyEndsWith s ".PNG" = true →
      pyEndsWith (pyLower s) ".png" = true := by
    intro s h
    have := pyEndsWith_lower h
    rwa [show pyLower ".PNG" = ".png" from rfl] at this
  refine ⟨?_, ?_, ?_, ?_⟩
  · intro f ct h
    unfold ensure_extension
    have : has_image_extension f = true := by
      simp [has_image_extension, image_extensions, hjpg f h]
    rw [this]
    simp
  · intro f ct h
    unfold ensure_extension
    have : has_image_extension f = true := by
      simp [has_image_extension, image_extensions, hpng f h]
    rw [this]
    simp
  · intro url h
    simp [is_valid_image_url, image_extensions, hjpg (urlPath url) h]
  · intro url h
    simp [is_valid_image_url, image_extensions, hpng (urlPath url) h]

end ImageDl
